import Mathlib

/-!
Verification development for the crsserver subscription backend.

This file gives a shallow embedding of the subscription / device / transaction
state machine of the repository and proves or refutes the frozen claims about
it.  The embedding follows the source files:

* `models/subscription.js` (the updated model with the QUEUED status, its
  `getNextQueuePosition` and `reorderDeviceQueue` statics),
* `controllers/adminController.js` (the version without `SubscriptionQueue`:
  `logTransactionUpdate`, `approveSubscription`, `rejectSubscription`,
  `activateSubscription`, `updateQueuePosition`, `bulkUpdateSubscriptions`),
* `controllers/subscriptionController.js` (the self-service OTP activation,
  `upgradeSubscription`, `renewSubscription`),
* `utils/helpers.js` (`getSubscriptionPrice`, `getSubscriptionDuration`).

Modelling conventions:

* Documents live in in-memory lists; a `DB` value is the whole store.
  Persisting a mongoose document (`doc.save()`) is replacing the list entry
  with the same `id`; a Mongo `findOne` with a sort is a fold that keeps the
  first maximal element.
* Timestamps are integer milliseconds since the epoch (`Int`), so
  `new Date(Date.now() + days*24*60*60*1000)` is `now + days * dayMs`.
* Monetary amounts are integer cents (so the `29.99` of the price table is
  `2999`), which preserves every comparison and difference in the source.
* `queuePosition` is stored as a `String`, exactly as in the schema
  (`queuePosition: { type: String }`); Mongo's descending sort on that field
  compares strings byte-lexicographically, modelled by `charListLT` on the
  code points (identical to the byte order for the ASCII digit strings
  occurring here).  JavaScript's `parseInt` is modelled by `jsParseInt`.
* Operations return `Except CustomError` (a thrown `CustomError` aborts the
  surrounding store transaction, so an error leaves the store unchanged);
  handlers that were modelled as state-returning runs produce
  `DB × Option CustomError` where the first component is the store after the
  request (unchanged when an error was thrown).
* The TOTP primitive of `speakeasy` is abstracted as a code generator
  `gen : String → Int → String` from shared secret and 30-second time step to
  the displayed code; `speakeasy.totp.verify` with `window: 2` accepts a
  token iff it equals the generated code at some step within two steps of the
  current one (`totpCheck`).
-/

/-- A thrown `CustomError(statusCode, message)` from `utils/customError.js`. -/
structure CustomError where
  status : Nat
  msg : String
deriving DecidableEq, Repr

/-- Subscription status enum of `models/subscription.js`. -/
inductive SubStatus where
  | PENDING
  | QUEUED
  | ACTIVE
  | EXPIRED
  | CANCELLED
  | APPROVED
deriving DecidableEq, Repr

/-- Transaction `type` values used by the controllers. -/
inductive TxType where
  | SUBSCRIPTION_CREATED
  | SUBSCRIPTION_APPROVED
  | SUBSCRIPTION_ACTIVATED
  | SUBSCRIPTION_REJECTED
  | SUBSCRIPTION_UPGRADED
  | SUBSCRIPTION_DOWNGRADED
  | SUBSCRIPTION_CANCELLED
  | QUEUE_POSITION_UPDATED
deriving DecidableEq, Repr

/-- Transaction `status` values used by the controllers. -/
inductive TxStatus where
  | PENDING
  | COMPLETED
  | FAILED
  | CANCELLED
deriving DecidableEq, Repr

/-- One subscription document, with the schema fields the claims depend on
(`models/subscription.js`).  Note that the schema has `plan` and **no**
`subscriptionType` path. -/
structure Subscription where
  id : Nat
  user : String
  imei : String
  plan : String
  price : Int
  queuePosition : Option String
  startDate : Option Int
  endDate : Option Int
  status : SubStatus
  adminNotes : String
  reviewedBy : Option String
  reviewedAt : Option Int
  priority : Int
  createdAt : Nat
  cancelledAt : Option Int
  cancellationReason : Option String
deriving DecidableEq, Repr

/-- One device document (`models/device.js`): owner, IMEI, TOTP shared
secret and the onboarding flag. -/
structure Device where
  id : Nat
  user : String
  imei : String
  totpSecret : String
  isOnboarded : Bool
deriving DecidableEq, Repr

/-- One transaction-ledger document, with the fields read or written by
`logTransactionUpdate` and the subscription controllers. -/
structure Transaction where
  id : Nat
  user : String
  subscription : Nat
  device : Option Nat
  transactionId : String
  ttype : TxType
  amount : Int
  plan : String
  status : TxStatus
  processedBy : Option String
  processedAt : Option Int
  previousTransaction : Option Nat
  relatedTransactions : List Nat
  adminNotes : String
  createdAt : Int
deriving DecidableEq, Repr

/-- The backing store: the three collections the claims touch. -/
structure DB where
  subs : List Subscription
  devices : List Device
  txns : List Transaction
deriving DecidableEq, Repr

/-- Milliseconds in a day; `24 * 60 * 60 * 1000` in the source. -/
def dayMs : Int := 86400000

/-- `getSubscriptionPrice` of `utils/helpers.js`, in cents: the fixed
plan price table with the `|| 29.99` fallback. -/
def getSubscriptionPrice (subscriptionType : String) : Int :=
  if subscriptionType = "mobile-v4-basic" then 2999
  else if subscriptionType = "mobile-v4-premium" then 4999
  else if subscriptionType = "mobile-v4-enterprise" then 9999
  else if subscriptionType = "mobile-v5-basic" then 3999
  else if subscriptionType = "mobile-v5-premium" then 5999
  else if subscriptionType = "full-suite-basic" then 7999
  else if subscriptionType = "full-suite-premium" then 14999
  else 2999

/-- `getSubscriptionDuration` of `utils/helpers.js`: plan duration in days
with the `|| 30` fallback. -/
def getSubscriptionDuration (subscriptionType : String) : Int :=
  if subscriptionType = "mobile-v4-basic" then 30
  else if subscriptionType = "mobile-v4-premium" then 60
  else if subscriptionType = "mobile-v4-enterprise" then 90
  else if subscriptionType = "mobile-v5-basic" then 30
  else if subscriptionType = "mobile-v5-premium" then 60
  else if subscriptionType = "full-suite-basic" then 60
  else if subscriptionType = "full-suite-premium" then 90
  else 30

/-- The `SUBSCRIPTION_TYPES` duration table defined at the top of
`controllers/subscriptionController.js`, as a partial lookup (indexing a
plain object returns `undefined` on a missing key). -/
def subscriptionTypesTable (key : String) : Option Int :=
  if key = "mobile-v4-basic" then some 30
  else if key = "mobile-v4-premium" then some 60
  else if key = "mobile-v4-enterprise" then some 90
  else if key = "mobile-v5-basic" then some 30
  else if key = "mobile-v5-premium" then some 60
  else if key = "full-suite-basic" then some 60
  else if key = "full-suite-premium" then some 90
  else none

/-- Value of the ASCII digit string `l` (most significant digit first),
accumulated the way a left-to-right parser does. -/
def digitsVal (l : List Char) : Nat :=
  l.foldl (fun a c => a * 10 + (c.toNat - 48)) 0

/-- JavaScript `parseInt(s)`: skip leading spaces, consume an optional
sign and then the longest digit run; `none` models the `NaN` result when no
digit is found. -/
def jsParseInt (s : String) : Option Int :=
  let l := s.data.dropWhile (fun c => c = ' ')
  match l with
  | '-' :: rest =>
      let d := rest.takeWhile (fun c => c.isDigit)
      if d.isEmpty then none else some (-(digitsVal d : Int))
  | '+' :: rest =>
      let d := rest.takeWhile (fun c => c.isDigit)
      if d.isEmpty then none else some ((digitsVal d : Int))
  | _ =>
      let d := l.takeWhile (fun c => c.isDigit)
      if d.isEmpty then none else some ((digitsVal d : Int))

/-- `Subscription.findById(id)`. -/
def findSub (db : DB) (id : Nat) : Option Subscription :=
  db.subs.find? (fun s => s.id = id)

/-- `doc.save()` for a subscription document: replace the stored record
with the same `_id`. -/
def saveSub (db : DB) (s' : Subscription) : DB :=
  { db with subs := db.subs.map (fun s => if s.id = s'.id then s' else s) }

/-- `doc.save()` for a device document. -/
def saveDevice (db : DB) (d' : Device) : DB :=
  { db with devices := db.devices.map (fun d => if d.id = d'.id then d' else d) }

/-- `Device.findOne({user, imei})`. -/
def findDevice (db : DB) (user imei : String) : Option Device :=
  db.devices.find? (fun d => d.user = user ∧ d.imei = imei)

/-- A subscription counts toward the per-device queue of `imei` when its
status is in `{QUEUED, PENDING}` — the filter
`{ imei, status: { $in: ["QUEUED", "PENDING"] } }` used by both queue
statics of `models/subscription.js`. -/
def inQueueOf (imei : String) (s : Subscription) : Bool :=
  s.imei = imei ∧ (s.status = SubStatus.QUEUED ∨ s.status = SubStatus.PENDING)

/-- Lexicographic comparison of character lists by code point — for the
ASCII strings stored in `queuePosition` this is exactly MongoDB's
byte-wise (simple binary collation) string order. -/
def charListLT : List Char → List Char → Bool
  | [], [] => false
  | [], _ :: _ => true
  | _ :: _, [] => false
  | a :: as, b :: bs => if a < b then true else if b < a then false else charListLT as bs

/-- MongoDB's string order on two string values. -/
def strLT (x y : String) : Bool := charListLT x.data y.data

/-- BSON ordering of the `queuePosition` sort key: a missing field sorts
like `null`, below every string; strings compare byte-lexicographically. -/
def posLT (a b : Option String) : Bool :=
  match a, b with
  | none, none => false
  | none, some _ => true
  | some _, none => false
  | some x, some y => strLT x y

/-- `findOne(filter).sort(key: -1)`: the first document of a descending
sort, i.e. a fold over the filtered collection that keeps the current
element and replaces it only by a strictly greater one. -/
def pickMax {α : Type} (better : α → α → Bool) (l : List α) : Option α :=
  l.foldl
    (fun acc s =>
      match acc with
      | none => some s
      | some m => if better m s then some s else some m)
    none

/-- `findOne({imei, status ∈ {QUEUED, PENDING}}).sort({queuePosition: -1})`:
the document with the greatest `queuePosition` sort key. -/
def findMaxQueued (db : DB) (imei : String) : Option Subscription :=
  pickMax (fun m s => posLT m.queuePosition s.queuePosition)
    (db.subs.filter (inQueueOf imei))

/-- `SubscriptionSchema.statics.getNextQueuePosition` of
`models/subscription.js`: take the document with the (lexicographically)
greatest `queuePosition` among the device's PENDING/QUEUED subscriptions,
return `"1"` when there is none or it has no position, else
`(parseInt(position) || 0) + 1` as a string. -/
def getNextQueuePosition (db : DB) (imei : String) : String :=
  match findMaxQueued db imei with
  | none => "1"
  | some lastQueued =>
    match lastQueued.queuePosition with
    | none => "1"
    | some p =>
      if p = "" then "1"
      else toString ((jsParseInt p).getD 0 + 1)

/-- Sort key of `reorderDeviceQueue`: `sort({priority: -1, createdAt: 1})`,
high priority first, then FIFO. -/
def reorderLE (a b : Subscription) : Bool :=
  a.priority > b.priority ∨ (a.priority = b.priority ∧ a.createdAt ≤ b.createdAt)

/-- `SubscriptionSchema.statics.reorderDeviceQueue` of
`models/subscription.js`: fetch the device's PENDING/QUEUED subscriptions in
`(priority desc, createdAt asc)` order and rewrite their positions to
`"1" .. "N"`. -/
def reorderDeviceQueue (db : DB) (imei : String) : DB :=
  let queuedSubs :=
    (db.subs.filter (inQueueOf imei)).insertionSort (fun a b => reorderLE a b)
  (List.zip queuedSubs (List.range queuedSubs.length)).foldl
    (fun acc si => saveSub acc { si.1 with queuePosition := some (toString (si.2 + 1)) })
    db

/-- The parsed queue positions of the device's PENDING/QUEUED
subscriptions (subscriptions without a parseable position contribute
nothing). -/
def queueNumbers (db : DB) (imei : String) : List Int :=
  (db.subs.filter (inQueueOf imei)).filterMap
    (fun s => s.queuePosition.bind jsParseInt)

/-- Dense packing, as the spec states it: the positions of the `N`
PENDING/QUEUED subscriptions of the device are exactly `{1, …, N}`, no
duplicates, no gaps. -/
def isDense (db : DB) (imei : String) : Bool :=
  let n := (db.subs.filter (inQueueOf imei)).length
  (queueNumbers db imei).insertionSort (fun a b => a ≤ b)
    = (List.range n).map (fun i => ((i : Int) + 1))

/-- Fresh ledger ids for newly appended transactions. -/
def freshTxnId (db : DB) : Nat :=
  (db.txns.map (fun t => t.id)).foldl max 0 + 1

/-- `Transaction.findOne({subscription}).sort({createdAt: -1})`: the most
recent ledger entry of the subscription's chain (first maximal element of
the descending sort). -/
def latestTxnFor (db : DB) (subId : Nat) : Option Transaction :=
  pickMax (fun m t => m.createdAt < t.createdAt)
    (db.txns.filter (fun t => t.subscription = subId))

/-- `logTransactionUpdate` of `controllers/adminController.js`: when the
subscription already has a ledger entry, append a new transaction copying
the monetary fields of the latest one, linked through
`previousTransaction`, and push the new id onto the latest entry's
`relatedTransactions`; when the subscription has **no** ledger entry, warn
and return without appending anything. -/
def logTransactionUpdate (db : DB) (subId : Nat) (ty : TxType) (st : TxStatus)
    (adminId : String) (notes : String) (now : Int) : DB :=
  match latestTxnFor db subId with
  | none => db
  | some existing =>
    let newId := freshTxnId db
    let newTxn : Transaction :=
      { id := newId
        user := existing.user
        subscription := subId
        device := existing.device
        transactionId := "TXN-" ++ toString newId
        ttype := ty
        amount := existing.amount
        plan := existing.plan
        status := st
        processedBy := some adminId
        processedAt := some now
        previousTransaction := some existing.id
        relatedTransactions := []
        adminNotes := notes
        createdAt := now }
    let db1 := { db with txns := db.txns ++ [newTxn] }
    { db1 with
      txns := db1.txns.map (fun t =>
        if t.id = existing.id then
          { t with relatedTransactions := t.relatedTransactions ++ [newId] }
        else t) }

/-- Is there an ACTIVE subscription of `user` other than document `id`?
(`findOne({user, status: "ACTIVE", _id: {$ne: id}})`). -/
def existsActiveUserOther (db : DB) (user : String) (id : Nat) : Bool :=
  db.subs.any (fun s => s.user = user ∧ s.status = SubStatus.ACTIVE ∧ s.id ≠ id)

/-- Is there an ACTIVE subscription on `imei` other than document `id`?
(`findOne({imei, status: "ACTIVE", _id: {$ne: id}})`). -/
def existsActiveImeiOther (db : DB) (imei : String) (id : Nat) : Bool :=
  db.subs.any (fun s => s.imei = imei ∧ s.status = SubStatus.ACTIVE ∧ s.id ≠ id)

/-- `approveSubscription` of `controllers/adminController.js`: only PENDING
subscriptions may be approved; the user and the device must not already
hold an ACTIVE subscription; with `activateNow` the record becomes ACTIVE
with `startDate = now` and `endDate = now + duration(plan)`, otherwise it
becomes APPROVED; then `logTransactionUpdate` records the change. -/
def approveSubscription (db : DB) (id : Nat) (comments : String)
    (activateNow : Bool) (adminId : String) (now : Int) : Except CustomError DB :=
  match findSub db id with
  | none => Except.error { status := 404, msg := "Subscription not found" }
  | some subscription =>
    if subscription.status ≠ SubStatus.PENDING then
      Except.error { status := 400, msg := "Only pending subscriptions can be approved" }
    else if existsActiveUserOther db subscription.user id then
      Except.error { status := 400, msg := "User already has an active subscription" }
    else if existsActiveImeiOther db subscription.imei id then
      Except.error { status := 400, msg := "Device already has an active subscription" }
    else
      let sub' :=
        if activateNow then
          { subscription with
            status := SubStatus.ACTIVE
            startDate := some now
            endDate := some (now + getSubscriptionDuration subscription.plan * dayMs)
            adminNotes := comments
            reviewedBy := some adminId
            reviewedAt := some now }
        else
          { subscription with
            status := SubStatus.APPROVED
            adminNotes := comments
            reviewedBy := some adminId
            reviewedAt := some now }
      let db1 := saveSub db sub'
      let db2 := logTransactionUpdate db1 id
        (if activateNow then TxType.SUBSCRIPTION_ACTIVATED else TxType.SUBSCRIPTION_APPROVED)
        (if activateNow then TxStatus.COMPLETED else TxStatus.PENDING)
        adminId comments now
      Except.ok db2

/-- `rejectSubscription` of `controllers/adminController.js`: requires a
non-empty reason, only PENDING subscriptions may be rejected; the record
becomes CANCELLED and the change is logged. -/
def rejectSubscription (db : DB) (id : Nat) (reason comments : String)
    (adminId : String) (now : Int) : Except CustomError DB :=
  if reason = "" then
    Except.error { status := 400, msg := "Rejection reason is required" }
  else
    match findSub db id with
    | none => Except.error { status := 404, msg := "Subscription not found" }
    | some subscription =>
      if subscription.status ≠ SubStatus.PENDING then
        Except.error { status := 400, msg := "Only pending subscriptions can be rejected" }
      else
        let notes := (reason ++ ". " ++ comments).trim
        let sub' :=
          { subscription with
            status := SubStatus.CANCELLED
            adminNotes := notes
            reviewedBy := some adminId
            reviewedAt := some now }
        let db1 := saveSub db sub'
        let db2 := logTransactionUpdate db1 id TxType.SUBSCRIPTION_REJECTED
          TxStatus.FAILED adminId notes now
        Except.ok db2

/-- The `updateMany` shift of `updateQueuePosition` in
`controllers/adminController.js`.  The stored filter is
`{ queuePosition: range, status: "PENDING", _id: { $ne: id } }`; note that
it restricts the status and excludes the target id but does **not**
restrict the `imei`.  This model reads the string-typed `queuePosition`
numerically for the range comparison and for the `$inc` (the charitable
reading of the source's number-against-string comparisons; under MongoDB's
actual typing rules the `$inc` on the string-typed path cannot apply at
all, which diverges from the claim even more strongly). -/
def shiftPositions (db : DB) (inRange : Int → Bool) (delta : Int) (excludeId : Nat) : DB :=
  { db with
    subs := db.subs.map (fun s =>
      if s.id ≠ excludeId ∧ s.status = SubStatus.PENDING then
        match s.queuePosition.bind jsParseInt with
        | some v => if inRange v then { s with queuePosition := some (toString (v + delta)) } else s
        | none => s
      else s) }

/-- `updateQueuePosition` of `controllers/adminController.js`: validates
the new position and the PENDING status, then shifts the records whose
(numeric) position lies between the old and the new position — moving up
increments `[new, old)`, moving down decrements `(old, new]` — sets the
target's position and logs a `QUEUE_POSITION_UPDATED` entry. -/
def updateQueuePosition (db : DB) (id : Nat) (newPosition : Int)
    (adminId : String) (now : Int) : Except CustomError DB :=
  if newPosition < 1 then
    Except.error { status := 400, msg := "Valid queue position is required" }
  else
    match findSub db id with
    | none => Except.error { status := 404, msg := "Subscription not found" }
    | some subscription =>
      if subscription.status ≠ SubStatus.PENDING then
        Except.error { status := 400, msg := "Can only update queue position for pending subscriptions" }
      else
        let oldNum : Option Int := subscription.queuePosition.bind jsParseInt
        let db1 :=
          match oldNum with
          | some oldPosition =>
            if newPosition < oldPosition then
              shiftPositions db (fun v => newPosition ≤ v ∧ v < oldPosition) 1 id
            else
              shiftPositions db (fun v => oldPosition < v ∧ v ≤ newPosition) (-1) id
          | none => db
        let db2 := saveSub db1 { subscription with queuePosition := some (toString newPosition) }
        let db3 := logTransactionUpdate db2 id TxType.QUEUE_POSITION_UPDATED
          TxStatus.PENDING adminId
          ("Queue position changed to " ++ toString newPosition) now
        Except.ok db3

/-- The `data` payload of a bulk request (`{activateNow, comments, reason}`);
absent string fields are the empty string (JavaScript falsy). -/
structure BulkData where
  activateNow : Bool
  comments : String
  reason : String
deriving DecidableEq, Repr

/-- One per-id entry of the bulk result list:
`{id, status, success, reason?}`. -/
structure BulkResult where
  id : Nat
  rstatus : String
  success : Bool
  reason : Option String
deriving DecidableEq, Repr

/-- The per-id body of `bulkUpdateSubscriptions` for the `approve` and
`reject` actions: load the record, and when it exists with status PENDING
apply the transition, save and log it; otherwise report a per-id failure
(`Invalid status or not found`).  Each id is wrapped in its own
`try/catch`, so one id's failure never aborts the others. -/
def bulkProcessOne (action : String) (data : BulkData) (adminId : String)
    (now : Int) (db : DB) (id : Nat) : DB × BulkResult :=
  match findSub db id with
  | some sub =>
    if sub.status = SubStatus.PENDING then
      if action = "approve" then
        let sub' :=
          if data.activateNow then
            { sub with
              status := SubStatus.ACTIVE
              adminNotes := data.comments
              reviewedBy := some adminId
              reviewedAt := some now
              startDate := some now
              endDate := some (now + getSubscriptionDuration sub.plan * dayMs) }
          else
            { sub with
              status := SubStatus.APPROVED
              adminNotes := data.comments
              reviewedBy := some adminId
              reviewedAt := some now }
        let db1 := saveSub db sub'
        let db2 := logTransactionUpdate db1 id
          (if data.activateNow then TxType.SUBSCRIPTION_ACTIVATED else TxType.SUBSCRIPTION_APPROVED)
          (if data.activateNow then TxStatus.COMPLETED else TxStatus.PENDING)
          adminId ("Bulk operation: " ++ data.comments) now
        (db2, { id := id, rstatus := "approved", success := true, reason := none })
      else
        let notes := (data.reason ++ ". " ++ data.comments).trim
        let sub' :=
          { sub with
            status := SubStatus.CANCELLED
            adminNotes := notes
            reviewedBy := some adminId
            reviewedAt := some now }
        let db1 := saveSub db sub'
        let db2 := logTransactionUpdate db1 id TxType.SUBSCRIPTION_REJECTED
          TxStatus.FAILED adminId notes now
        (db2, { id := id, rstatus := "rejected", success := true, reason := none })
    else
      (db, { id := id, rstatus := "failed", success := false,
             reason := some "Invalid status or not found" })
  | none =>
    (db, { id := id, rstatus := "failed", success := false,
           reason := some "Invalid status or not found" })

/-- Sequential threading of the per-id bodies over the store. -/
def bulkRun (action : String) (data : BulkData) (adminId : String) (now : Int) :
    DB → List Nat → DB × List BulkResult
  | db, [] => (db, [])
  | db, id :: rest =>
    let step := bulkProcessOne action data adminId now db id
    let tail := bulkRun action data adminId now step.1 rest
    (tail.1, step.2 :: tail.2)

/-- `bulkUpdateSubscriptions` of `controllers/adminController.js`: a
non-empty id list and an action are required; only the actions `approve`
and `reject` are handled (the `reject` action additionally requires
`data.reason`); any other action falls to the `default` branch and rejects
the whole request with `Invalid action specified`. -/
def bulkUpdateSubscriptions (db : DB) (subscriptionIds : List Nat)
    (action : String) (data : BulkData) (adminId : String) (now : Int) :
    Except CustomError (DB × List BulkResult) :=
  if subscriptionIds.isEmpty then
    Except.error { status := 400, msg := "Subscription IDs array is required" }
  else if action = "" then
    Except.error { status := 400, msg := "Action is required" }
  else if action = "approve" then
    Except.ok (bulkRun action data adminId now db subscriptionIds)
  else if action = "reject" then
    if data.reason = "" then
      Except.error { status := 400, msg := "Rejection reason is required for bulk rejection" }
    else
      Except.ok (bulkRun action data adminId now db subscriptionIds)
  else
    Except.error { status := 400, msg := "Invalid action specified" }

/-- `speakeasy.totp.verify({secret, token, window: 2})`: the token is
accepted iff it equals the code the generator produces at some time step
within `window` steps of the current step `t`. -/
def totpCheck (gen : String → Int → String) (secret token : String)
    (t : Int) (window : Nat) : Bool :=
  (List.range (2 * window + 1)).any (fun d => gen secret (t - (window : Int) + d) = token)

/-- The `subscription.subscriptionType` property read by the self-service
activation handler.  The subscription schema
(`models/subscription.js`) defines a `plan` path and **no**
`subscriptionType` path, so this document property access yields
`undefined` on every subscription document. -/
def subscriptionTypeOf (_s : Subscription) : Option String := none

/-- The self-service `activateSubscription` of
`controllers/subscriptionController.js` (OTP-gated activation): requires
all fields, an owned subscription in status QUEUED whose `imei` matches,
the device registered for `(user, imei)`, and a TOTP code valid within the
±2-step window; then computes the validity window from
`SUBSCRIPTION_TYPES[subscription.subscriptionType]` (falling back to 30
days), sets the subscription ACTIVE and stamps the device onboarded.  The
pair's second component is the thrown error, if any; on an error the store
is unchanged (the surrounding store transaction is aborted). -/
def otpActivate (gen : String → Int → String) (db : DB) (userId imei : String)
    (subscriptionId : Nat) (totpCode : String) (now : Int) (tstep : Int) :
    DB × Option CustomError :=
  if imei = "" ∨ totpCode = "" then
    (db, some { status := 400, msg := "Please provide all required fields" })
  else
    match findSub db subscriptionId with
    | none => (db, some { status := 404, msg := "Subscription not found" })
    | some subscription =>
      if subscription.user ≠ userId then
        (db, some { status := 403, msg := "Unauthorized access to subscription" })
      else if subscription.status ≠ SubStatus.QUEUED then
        (db, some { status := 400, msg := "Subscription not queued" })
      else if subscription.imei ≠ imei then
        (db, some { status := 400, msg := "Invalid IMEI" })
      else
        match findDevice db userId imei with
        | none => (db, some { status := 404, msg := "Device not found" })
        | some device =>
          if ¬ totpCheck gen device.totpSecret totpCode tstep 2 then
            (db, some { status := 400, msg := "Invalid OTP" })
          else
            let durationInDays := (subscriptionTypeOf subscription).bind subscriptionTypesTable
            let duration := durationInDays.getD 30
            let endDate := now + duration * dayMs
            let sub' :=
              { subscription with
                status := SubStatus.ACTIVE
                startDate := some now
                endDate := some endDate }
            let db1 := saveSub db sub'
            let db2 := saveDevice db1 { device with isOnboarded := true }
            (db2, none)

/-- Append a freshly created transaction document (`new Transaction({...});
await transaction.save()`). -/
def appendTxn (db : DB) (user : String) (subId : Nat) (ty : TxType)
    (amount : Int) (plan : String) (st : TxStatus) (now : Int) : DB :=
  let newId := freshTxnId db
  { db with
    txns := db.txns ++
      [{ id := newId
         user := user
         subscription := subId
         device := none
         transactionId := "TXN-" ++ toString newId
         ttype := ty
         amount := amount
         plan := plan
         status := st
         processedBy := none
         processedAt := none
         previousTransaction := none
         relatedTransactions := []
         adminNotes := ""
         createdAt := now }] }

/-- `transaction.updateStatus("COMPLETED", ...)` (instance method of the
transaction model): mark the given ledger entry completed. -/
def completeTxn (db : DB) (txnId : Nat) (now : Int) : DB :=
  { db with
    txns := db.txns.map (fun t =>
      if t.id = txnId then { t with status := TxStatus.COMPLETED, processedAt := some now } else t) }

/-- `upgradeSubscription` of `controllers/subscriptionController.js`:
requires an ACTIVE subscription owned by the caller; rejects when
`getSubscriptionPrice(newPlan) ≤ subscription.price` (`New plan must be
higher tier`); otherwise records a `SUBSCRIPTION_UPGRADED` ledger pair for
the prorated amount `newPrice − oldPrice`, updates the plan, the price and
the end date.  Returns the updated store and the prorated amount. -/
def upgradeSubscription (db : DB) (subscriptionId : Nat) (userId : String)
    (newPlan : String) (now : Int) : Except CustomError (DB × Int) :=
  match db.subs.find? (fun s =>
      s.id = subscriptionId ∧ s.user = userId ∧ s.status = SubStatus.ACTIVE) with
  | none => Except.error { status := 404, msg := "Active subscription not found" }
  | some subscription =>
    let oldPrice := subscription.price
    let newPrice := getSubscriptionPrice newPlan
    if newPrice ≤ oldPrice then
      Except.error { status := 400, msg := "New plan must be higher tier" }
    else
      let proratedAmount := newPrice - oldPrice
      let txnId := freshTxnId db
      let db1 := appendTxn db userId subscriptionId TxType.SUBSCRIPTION_UPGRADED
        proratedAmount newPlan TxStatus.PENDING now
      let newDuration := getSubscriptionDuration newPlan
      let sub' :=
        { subscription with
          plan := newPlan
          price := newPrice
          endDate := some (subscription.startDate.getD 0 + newDuration * dayMs) }
      let db2 := saveSub db1 sub'
      let db3 := completeTxn db2 txnId now
      Except.ok (db3, proratedAmount)

/-- `renewSubscription` of `controllers/subscriptionController.js`:
requires an EXPIRED subscription owned by the caller (404 otherwise);
records a `SUBSCRIPTION_ACTIVATED` ledger pair for the stored price, then
sets status ACTIVE, `startDate = now`, `endDate = now + duration(plan)`
and clears `cancelledAt` and `cancellationReason`. -/
def renewSubscription (db : DB) (subscriptionId : Nat) (userId : String)
    (now : Int) : Except CustomError DB :=
  match db.subs.find? (fun s =>
      s.id = subscriptionId ∧ s.user = userId ∧ s.status = SubStatus.EXPIRED) with
  | none => Except.error { status := 404, msg := "Expired subscription not found" }
  | some subscription =>
    let txnId := freshTxnId db
    let db1 := appendTxn db userId subscriptionId TxType.SUBSCRIPTION_ACTIVATED
      subscription.price subscription.plan TxStatus.PENDING now
    let db2 := completeTxn db1 txnId now
    let duration := getSubscriptionDuration subscription.plan
    let sub' :=
      { subscription with
        status := SubStatus.ACTIVE
        startDate := some now
        endDate := some (now + duration * dayMs)
        cancelledAt := none
        cancellationReason := none }
    Except.ok (saveSub db2 sub')

/-- Fixture builder: a subscription document with the given identity,
device, plan, queue position and status; `price` is derived from the plan
as the creation flow does, `createdAt` equals the id so later-created
records have later timestamps. -/
def sampleSub (id : Nat) (user imei plan : String) (pos : Option String)
    (st : SubStatus) : Subscription :=
  { id := id, user := user, imei := imei, plan := plan
    price := getSubscriptionPrice plan, queuePosition := pos
    startDate := none, endDate := none, status := st, adminNotes := ""
    reviewedBy := none, reviewedAt := none, priority := 0, createdAt := id
    cancelledAt := none, cancellationReason := none }

/-- Fixture: one IMEI with two PENDING subscriptions at the densely packed
positions `"1"` and `"2"`. -/
def dbTwoPending : DB :=
  { subs := [sampleSub 1 "u1" "imei1" "mobile-v4-basic" (some "1") SubStatus.PENDING,
             sampleSub 2 "u2" "imei1" "mobile-v4-basic" (some "2") SubStatus.PENDING]
    devices := [], txns := [] }

/-- Fixture: one IMEI whose queue has reached the two-digit position
`"10"` next to the single-digit `"9"`. -/
def dbNinePlusTen : DB :=
  { subs := [sampleSub 1 "u1" "imei9" "mobile-v4-basic" (some "9") SubStatus.PENDING,
             sampleSub 2 "u2" "imei9" "mobile-v4-basic" (some "10") SubStatus.PENDING]
    devices := [], txns := [] }

/-- Fixture: two IMEIs, `"A"` and `"B"`, each with its own densely packed
PENDING queue at positions `"1"` and `"2"`. -/
def dbTwoImeis : DB :=
  { subs := [sampleSub 1 "uA1" "A" "mobile-v4-basic" (some "1") SubStatus.PENDING,
             sampleSub 2 "uA2" "A" "mobile-v4-basic" (some "2") SubStatus.PENDING,
             sampleSub 3 "uB1" "B" "mobile-v4-basic" (some "1") SubStatus.PENDING,
             sampleSub 4 "uB2" "B" "mobile-v4-basic" (some "2") SubStatus.PENDING]
    devices := [], txns := [] }

/-- A concrete TOTP code generator used by the closed theorems: the
displayed code is the decimal rendering of the time step. -/
def stepEchoGen : String → Int → String := fun _ k => toString k

/-- Fixture: the user `"u"` already holds an ACTIVE subscription on device
`"i1"` and has a second, QUEUED subscription on device `"i2"` whose device
record is registered and not yet onboarded. -/
def dbActivePlusQueued : DB :=
  { subs := [sampleSub 1 "u" "i1" "mobile-v4-basic" none SubStatus.ACTIVE,
             sampleSub 2 "u" "i2" "mobile-v4-basic" none SubStatus.QUEUED]
    devices := [{ id := 1, user := "u", imei := "i2", totpSecret := "s", isOnboarded := false }]
    txns := [] }

/-- Number of ACTIVE subscriptions held by `user`. -/
def activeCountOfUser (db : DB) (user : String) : Nat :=
  (db.subs.filter (fun s => s.user = user ∧ s.status = SubStatus.ACTIVE)).length

/-- Fixture: a single PENDING subscription whose transaction chain is
empty. -/
def dbNoLedger : DB :=
  { subs := [sampleSub 1 "u" "i" "mobile-v4-basic" (some "1") SubStatus.PENDING]
    devices := [], txns := [] }

/-- C1: the dense-packing invariant is **not** re-established when a
subscription leaves the {PENDING, QUEUED} set: approving the subscription
at position "1" of a two-element queue succeeds but leaves the remaining
queue at position "2" (positions {2} instead of {1}), because
`approveSubscription` never invokes `reorderDeviceQueue`; invoking
`reorderDeviceQueue` afterwards would restore density, but no caller in
the codebase does. -/
theorem approve_leaves_queue_positions_sparse :
    isDense dbTwoPending "imei1" = true ∧
    (approveSubscription dbTwoPending 1 "" false "admin" 0).toOption.map
        (fun d => (isDense d "imei1", isDense (reorderDeviceQueue d "imei1") "imei1"))
      = some (false, true) := by
  constructor
  · decide
  · decide

/-- C3: `updateQueuePosition` shifts records that are not between the old
and the new position of the target's queue: moving the IMEI-"A" record
at position "2" to position "1" also increments the IMEI-"B" record at
position "1" (the `updateMany` filter has no `imei` restriction), so
IMEI "B"'s positions are no longer a permutation of 1..N — they become
{2, 2}. -/
theorem updateQueuePosition_cross_imei_corruption :
    isDense dbTwoImeis "A" = true ∧ isDense dbTwoImeis "B" = true ∧
    (updateQueuePosition dbTwoImeis 2 1 "admin" 0).toOption.map
        (fun d => (isDense d "A", isDense d "B",
          (findSub d 3).map (fun s => s.queuePosition)))
      = some (true, false, some (some "2")) := by
  refine ⟨by decide, by decide, by decide⟩

/-- C4: the self-service OTP activation performs no ACTIVE-uniqueness
check: with an ACTIVE subscription already held by user "u", activating
the user's QUEUED subscription with a valid code succeeds and leaves the
user with two ACTIVE subscriptions. -/
theorem otp_activation_violates_active_uniqueness :
    activeCountOfUser dbActivePlusQueued "u" = 1 ∧
    (otpActivate stepEchoGen dbActivePlusQueued "u" "i2" 2 "7" 1000 7).2 = none ∧
    activeCountOfUser (otpActivate stepEchoGen dbActivePlusQueued "u" "i2" 2 "7" 1000 7).1 "u" = 2 := by
  refine ⟨by decide, by decide, by decide⟩


/-- The next queue position as the claim states it (a second definition
following the spec's words, for comparison with the source-derived
`getNextQueuePosition`): one plus the numeric maximum of the existing
PENDING/QUEUED positions of the IMEI, defaulting to 1 when none exist. -/
def specNextQueuePosition (db : DB) (imei : String) : String :=
  if (queueNumbers db imei).isEmpty then "1"
  else toString ((queueNumbers db imei).foldl max 0 + 1)

/-- C2 counterexample: with positions `"9"` and `"10"` in the queue, the
descending Mongo sort on the string-typed `queuePosition` puts `"9"` first
(byte-lexicographic order), so `getNextQueuePosition` returns `"10"` —
which duplicates an existing position — while the claimed value
`max + 1` is `"11"`. -/
theorem getNextQueuePosition_lex_counterexample :
    getNextQueuePosition dbNinePlusTen "imei9" = "10" ∧
    specNextQueuePosition dbNinePlusTen "imei9" = "11" ∧
    ("10" : String) ≠ "11" := by
  refine ⟨by decide, by decide, by decide⟩

/-- C5 counterexample: approving a PENDING subscription whose transaction
chain is empty succeeds but appends **no** ledger entry
(`logTransactionUpdate` finds no existing transaction, warns and returns
`null`), so this status-affecting mutation has no corresponding
Transaction. -/
theorem approve_no_prior_transaction_appends_nothing :
    dbNoLedger.txns = [] ∧
    (approveSubscription dbNoLedger 1 "ok" false "admin" 0).toOption.map
        (fun d => d.txns.length) = some 0 := by
  refine ⟨by decide, by decide⟩

/-- C8 counterexample: the `under_review` bulk action is not applied
per-id: it falls through to the `default` branch and the whole request is
rejected with `Invalid action specified` (and `update_priority` behaves
the same), instead of returning a per-id result list. -/
theorem bulk_under_review_rejected_wholesale :
    bulkUpdateSubscriptions dbTwoPending [1, 2] "under_review"
        { activateNow := false, comments := "", reason := "" } "admin" 0
      = Except.error { status := 400, msg := "Invalid action specified" } ∧
    bulkUpdateSubscriptions dbTwoPending [1, 2] "update_priority"
        { activateNow := false, comments := "", reason := "" } "admin" 0
      = Except.error { status := 400, msg := "Invalid action specified" } := by
  refine ⟨by rfl, by rfl⟩

/-- Saving a subscription leaves the device and ledger collections
unchanged. -/
@[simp] theorem saveSub_devices (db : DB) (s : Subscription) :
    (saveSub db s).devices = db.devices := rfl

@[simp] theorem saveSub_txns (db : DB) (s : Subscription) :
    (saveSub db s).txns = db.txns := rfl

/-- Saving a device leaves the subscription and ledger collections
unchanged. -/
@[simp] theorem saveDevice_subs (db : DB) (d : Device) :
    (saveDevice db d).subs = db.subs := rfl

@[simp] theorem saveDevice_txns (db : DB) (d : Device) :
    (saveDevice db d).txns = db.txns := rfl

/-- Appending a ledger entry leaves the subscription and device
collections unchanged. -/
@[simp] theorem appendTxn_subs (db : DB) (u : String) (i : Nat) (ty : TxType)
    (a : Int) (p : String) (st : TxStatus) (n : Int) :
    (appendTxn db u i ty a p st n).subs = db.subs := rfl

@[simp] theorem appendTxn_devices (db : DB) (u : String) (i : Nat) (ty : TxType)
    (a : Int) (p : String) (st : TxStatus) (n : Int) :
    (appendTxn db u i ty a p st n).devices = db.devices := rfl

/-- Completing a ledger entry leaves the subscription and device
collections unchanged. -/
@[simp] theorem completeTxn_subs (db : DB) (i : Nat) (n : Int) :
    (completeTxn db i n).subs = db.subs := rfl

@[simp] theorem completeTxn_devices (db : DB) (i : Nat) (n : Int) :
    (completeTxn db i n).devices = db.devices := rfl

/-- `logTransactionUpdate` only writes the ledger collection. -/
@[simp] theorem logTransactionUpdate_subs (db : DB) (subId : Nat) (ty : TxType)
    (st : TxStatus) (adminId notes : String) (now : Int) :
    (logTransactionUpdate db subId ty st adminId notes now).subs = db.subs := by
  unfold logTransactionUpdate
  cases latestTxnFor db subId <;> rfl

@[simp] theorem logTransactionUpdate_devices (db : DB) (subId : Nat) (ty : TxType)
    (st : TxStatus) (adminId notes : String) (now : Int) :
    (logTransactionUpdate db subId ty st adminId notes now).devices = db.devices := by
  unfold logTransactionUpdate
  cases latestTxnFor db subId <;> rfl

/-- A predicate-respecting rewrite of the list does not change `find?`:
if the rewrite preserves the predicate's value everywhere and fixes every
element satisfying it, the search is unaffected. -/
theorem find?_map_congr {α : Type} (f : α → α) (p : α → Bool)
    (hp : ∀ a, p (f a) = p a) (hfix : ∀ a, p a = true → f a = a) :
    ∀ l : List α, (l.map f).find? p = l.find? p := by
  intro l
  induction l with
  | nil => rfl
  | cons a t ih =>
    simp only [List.map_cons, List.find?_cons]
    cases ha : p a with
    | true => simp [hp a, ha, hfix a ha]
    | false => simp [hp a, ha, ih]

/-- Replacing the documents that carry a given id does not affect a
search for a different id. -/
theorem findSub_saveSub_ne (db : DB) (s' : Subscription) (j : Nat)
    (h : s'.id ≠ j) : findSub (saveSub db s') j = findSub db j := by
  unfold findSub saveSub
  apply find?_map_congr
  · intro a
    by_cases ha : a.id = s'.id
    · simp [ha, h]
    · simp [ha]
  · intro a hpa
    have haj : a.id = j := by simpa using hpa
    have : a.id ≠ s'.id := by
      intro hcontra
      exact h (hcontra ▸ haj)
    simp [this]

/-- List form of `findSub_saveSub_self`: replacing every record that
carries the id of `s'` makes a search for that id find `s'`, provided some
record with that id exists. -/
theorem find?_replace_self (s' : Subscription) :
    ∀ l : List Subscription, (∃ s ∈ l, s.id = s'.id) →
    (l.map (fun s => if s.id = s'.id then s' else s)).find?
        (fun s => s.id = s'.id) = some s' := by
  intro l
  induction l with
  | nil => rintro ⟨s, hmem, _⟩; cases hmem
  | cons a t ih =>
    rintro ⟨s, hmem, hid⟩
    simp only [List.map_cons, List.find?_cons]
    by_cases ha : a.id = s'.id
    · simp [ha]
    · have hmem' : s ∈ t := by
        cases hmem with
        | head => exact absurd hid ha
        | tail _ h => exact h
      simp only [if_neg ha]
      rw [show (decide (a.id = s'.id)) = false by simp [ha]]
      exact ih ⟨s, hmem', hid⟩

/-- After saving a subscription whose id already occurs in the store, a
search for that id finds exactly the saved record. -/
theorem findSub_saveSub_self (db : DB) (s' : Subscription)
    (h : ∃ s ∈ db.subs, s.id = s'.id) :
    findSub (saveSub db s') s'.id = some s' :=
  find?_replace_self s' db.subs h

/-- C7: renewal is legal exactly from EXPIRED: when the caller owns an
EXPIRED subscription with the requested id, `renewSubscription` succeeds
and the stored record afterwards is ACTIVE with `startDate = now`,
`endDate = now + duration(plan)` and cleared `cancelledAt` /
`cancellationReason`; when no such EXPIRED subscription exists (any other
status, wrong owner or unknown id), it fails with 404 and changes
nothing. -/
theorem renew_expired_spec (db : DB) (subId : Nat) (userId : String) (now : Int) :
    (∀ sub, db.subs.find? (fun s =>
        s.id = subId ∧ s.user = userId ∧ s.status = SubStatus.EXPIRED) = some sub →
      ∃ db', renewSubscription db subId userId now = Except.ok db' ∧
        findSub db' subId = some
          { sub with
            status := SubStatus.ACTIVE
            startDate := some now
            endDate := some (now + getSubscriptionDuration sub.plan * dayMs)
            cancelledAt := none
            cancellationReason := none }) ∧
    (db.subs.find? (fun s =>
        s.id = subId ∧ s.user = userId ∧ s.status = SubStatus.EXPIRED) = none →
      renewSubscription db subId userId now
        = Except.error { status := 404, msg := "Expired subscription not found" }) := by
  constructor
  · intro sub hfind
    have hp := List.find?_some hfind
    have hmem := List.mem_of_find?_eq_some hfind
    simp only [decide_eq_true_eq] at hp
    obtain ⟨hid, huser, hstatus⟩ := hp
    simp only [renewSubscription, hfind]
    refine ⟨_, rfl, ?_⟩
    subst hid
    exact findSub_saveSub_self _ _ ⟨sub, by simpa using hmem, rfl⟩
  · intro hnone
    simp only [renewSubscription, hnone]

/-- List form of `findDevice_saveDevice_self`: after replacing the records
that carry the id of the found device by `d'`, a search with the same
predicate finds `d'`, provided `d'` itself satisfies the predicate. -/
theorem find?_replace_device (p : Device → Bool) (d d' : Device) (hid : d.id = d'.id)
    (hp : p d' = true) :
    ∀ l : List Device, l.find? p = some d →
    (l.map (fun x => if x.id = d'.id then d' else x)).find? p = some d' := by
  intro l
  induction l with
  | nil => intro h; cases h
  | cons a t ih =>
    intro h
    rw [List.find?_cons] at h
    simp only [List.map_cons, List.find?_cons]
    by_cases ha : a.id = d'.id
    · simp [ha, hp]
    · cases hpa : p a with
      | true =>
        rw [hpa] at h
        have : a = d := by injection h
        exact absurd (this ▸ hid) ha
      | false =>
        rw [hpa] at h
        simp only [if_neg ha, hpa]
        exact ih h

/-- After saving a device that keeps the owner and IMEI of the device the
search found, the search finds exactly the saved record. -/
theorem findDevice_saveDevice_self (db : DB) (u im : String) (d d' : Device)
    (hfind : findDevice db u im = some d) (hid : d.id = d'.id)
    (hu : d'.user = u) (him : d'.imei = im) :
    findDevice (saveDevice db d') u im = some d' :=
  find?_replace_device _ d d' hid (by simp [hu, him]) db.devices hfind

/-- Searching subscriptions is unaffected by saving a device, and
searching devices is unaffected by saving a subscription. -/
@[simp] theorem findSub_saveDevice (db : DB) (d : Device) (i : Nat) :
    findSub (saveDevice db d) i = findSub db i := rfl

@[simp] theorem findDevice_saveSub (db : DB) (s : Subscription) (u im : String) :
    findDevice (saveSub db s) u im = findDevice db u im := rfl

/-- C9: OTP activation is legal only from QUEUED.  For an owned
subscription with matching IMEI: any status other than QUEUED fails and
leaves the store (subscription and device included) unchanged; from
QUEUED with the bound device present, a code valid within the ±2-step
window activates the subscription (status ACTIVE, `startDate = now`) and
marks the device onboarded, while an invalid code fails with the
`Invalid OTP` validation error and changes nothing. -/
theorem otp_activation_spec (gen : String → Int → String) (db : DB)
    (userId imei : String) (subId : Nat) (token : String) (now tstep : Int)
    (sub : Subscription)
    (hfind : findSub db subId = some sub)
    (hown : sub.user = userId)
    (himei : sub.imei = imei)
    (hne : imei ≠ "") (htok : token ≠ "") :
    (sub.status ≠ SubStatus.QUEUED →
      ∃ e, otpActivate gen db userId imei subId token now tstep = (db, some e)) ∧
    (∀ device, sub.status = SubStatus.QUEUED →
      findDevice db userId imei = some device →
      (totpCheck gen device.totpSecret token tstep 2 = true →
        ∃ db', otpActivate gen db userId imei subId token now tstep = (db', none) ∧
          (∃ r, findSub db' subId = some r ∧ r.status = SubStatus.ACTIVE ∧
            r.startDate = some now) ∧
          (∃ dd, findDevice db' userId imei = some dd ∧ dd.isOnboarded = true)) ∧
      (totpCheck gen device.totpSecret token tstep 2 = false →
        otpActivate gen db userId imei subId token now tstep
          = (db, some { status := 400, msg := "Invalid OTP" }))) := by
  have hguard : ¬ (imei = "" ∨ token = "") := by
    rintro (h | h)
    · exact hne h
    · exact htok h
  constructor
  · intro hstatus
    refine ⟨{ status := 400, msg := "Subscription not queued" }, ?_⟩
    simp only [otpActivate, if_neg hguard, hfind, hown, himei]
    simp [hstatus]
  · intro device hqueued hdev
    have hdp := List.find?_some hdev
    simp only [decide_eq_true_eq] at hdp
    obtain ⟨hdu, hdi⟩ := hdp
    have hmem := List.mem_of_find?_eq_some hfind
    have hsid : sub.id = subId := by
      have := List.find?_some hfind
      simpa using this
    subst hsid
    constructor
    · intro hcheck
      have hrun : otpActivate gen db userId imei sub.id token now tstep =
          (saveDevice
            (saveSub db
              { sub with
                status := SubStatus.ACTIVE
                startDate := some now
                endDate := some (now +
                  (((subscriptionTypeOf sub).bind subscriptionTypesTable).getD 30) * dayMs) })
            { device with isOnboarded := true }, none) := by
        simp only [otpActivate, if_neg hguard, hfind, hown, himei, hqueued, hdev]
        simp [hcheck]
      refine ⟨_, hrun, ?_, ?_⟩
      · simp only [findSub_saveDevice]
        exact ⟨_, findSub_saveSub_self db _ ⟨sub, hmem, rfl⟩, rfl, rfl⟩
      · exact ⟨_, findDevice_saveDevice_self db userId imei device _ hdev rfl hdu hdi, rfl⟩
    · intro hcheck
      simp only [otpActivate, if_neg hguard, hfind, hown, himei, hqueued, hdev]
      simp [hcheck]

/-- C10: every successful self-service OTP activation computes a 30-day
validity window, whatever the plan: the duration lookup reads
`subscription.subscriptionType`, a path the schema does not define, so
`SUBSCRIPTION_TYPES[undefined]` misses and the 30-day default applies —
the resulting record keeps its plan but gets `endDate = now + 30 days`. -/
theorem otp_activation_always_thirty_days (gen : String → Int → String) (db : DB)
    (userId imei : String) (subId : Nat) (token : String) (now tstep : Int)
    (sub : Subscription) (device : Device)
    (hfind : findSub db subId = some sub)
    (hown : sub.user = userId)
    (himei : sub.imei = imei)
    (hne : imei ≠ "") (htok : token ≠ "")
    (hqueued : sub.status = SubStatus.QUEUED)
    (hdev : findDevice db userId imei = some device)
    (hcheck : totpCheck gen device.totpSecret token tstep 2 = true) :
    ∃ db' r, otpActivate gen db userId imei subId token now tstep = (db', none) ∧
      findSub db' subId = some r ∧ r.plan = sub.plan ∧
      r.endDate = some (now + 30 * dayMs) := by
  have hguard : ¬ (imei = "" ∨ token = "") := by
    rintro (h | h)
    · exact hne h
    · exact htok h
  have hmem := List.mem_of_find?_eq_some hfind
  have hsid : sub.id = subId := by
    have := List.find?_some hfind
    simpa using this
  subst hsid
  have hrun : otpActivate gen db userId imei sub.id token now tstep =
      (saveDevice
        (saveSub db
          { sub with
            status := SubStatus.ACTIVE
            startDate := some now
            endDate := some (now +
              (((subscriptionTypeOf sub).bind subscriptionTypesTable).getD 30) * dayMs) })
        { device with isOnboarded := true }, none) := by
    simp only [otpActivate, if_neg hguard, hfind, hown, himei, hqueued, hdev]
    simp [hcheck]
  have hfound := findSub_saveSub_self db
      { sub with
        status := SubStatus.ACTIVE
        startDate := some now
        endDate := some (now +
          (((subscriptionTypeOf sub).bind subscriptionTypesTable).getD 30) * dayMs) }
      ⟨sub, hmem, rfl⟩
  exact ⟨_, _, hrun, hfound, rfl, rfl⟩

/-- C6: given the caller owns an ACTIVE subscription whose stored price is
the plan's table price, the upgrade fails with the Conflict error
`New plan must be higher tier` exactly when
`price(newPlan) ≤ price(currentPlan)`, and on the success path the charged
(prorated) amount is `price(newPlan) − price(currentPlan)`. -/
theorem upgrade_conflict_iff_price_le (db : DB) (subId : Nat)
    (userId newPlan : String) (now : Int) (sub : Subscription)
    (hfind : db.subs.find? (fun s =>
        s.id = subId ∧ s.user = userId ∧ s.status = SubStatus.ACTIVE) = some sub)
    (hprice : sub.price = getSubscriptionPrice sub.plan) :
    (upgradeSubscription db subId userId newPlan now
        = Except.error { status := 400, msg := "New plan must be higher tier" }
      ↔ getSubscriptionPrice newPlan ≤ getSubscriptionPrice sub.plan) ∧
    (∀ db' amt, upgradeSubscription db subId userId newPlan now = Except.ok (db', amt) →
      amt = getSubscriptionPrice newPlan - getSubscriptionPrice sub.plan) := by
  by_cases hle : getSubscriptionPrice newPlan ≤ sub.price
  · constructor
    · constructor
      · intro _
        exact hprice ▸ hle
      · intro _
        simp only [upgradeSubscription, hfind, if_pos hle]
    · intro db' amt hok
      simp only [upgradeSubscription, hfind, if_pos hle] at hok
      exact absurd hok (by simp)
  · constructor
    · constructor
      · intro herr
        simp only [upgradeSubscription, hfind, if_neg hle] at herr
        exact absurd herr (by simp)
      · intro hge
        exact absurd (hprice ▸ hge) hle
    · intro db' amt hok
      simp only [upgradeSubscription, hfind, if_neg hle] at hok
      have : amt = getSubscriptionPrice newPlan - sub.price := by
        cases hok.symm
        rfl
      rw [this, hprice]

/-- Fixture: an EXPIRED subscription of user `"u"` carrying stale
cancellation metadata. -/
def expiredSub : Subscription :=
  { sampleSub 1 "u" "i" "mobile-v4-premium" none SubStatus.EXPIRED with
    cancelledAt := some 5
    cancellationReason := some "late payment" }

/-- Fixture store holding only `expiredSub`. -/
def dbExpired : DB := { subs := [expiredSub], devices := [], txns := [] }

/-- C7 witness: renewing the EXPIRED fixture as its owner yields an ACTIVE
record with the recomputed window and cleared cancellation fields, and a
non-owner gets the 404. -/
theorem renew_expired_spec_witness :
    (∃ db', renewSubscription dbExpired 1 "u" 100 = Except.ok db' ∧
      findSub db' 1 = some
        { expiredSub with
          status := SubStatus.ACTIVE
          startDate := some 100
          endDate := some (100 + getSubscriptionDuration expiredSub.plan * dayMs)
          cancelledAt := none
          cancellationReason := none }) ∧
    renewSubscription dbExpired 1 "v" 100
      = Except.error { status := 404, msg := "Expired subscription not found" } :=
  ⟨(renew_expired_spec dbExpired 1 "u" 100).1 expiredSub (by decide),
   (renew_expired_spec dbExpired 1 "v" 100).2 (by decide)⟩

/-- Fixture: an ACTIVE full-suite-premium subscription of user `"u"`. -/
def premiumActiveSub : Subscription :=
  { sampleSub 1 "u" "i" "full-suite-premium" none SubStatus.ACTIVE with
    startDate := some 0
    endDate := some 100 }

/-- Fixture store holding only `premiumActiveSub`. -/
def dbPremiumActive : DB := { subs := [premiumActiveSub], devices := [], txns := [] }

/-- C6 witness: upgrading from full-suite-premium ($149.99) to
mobile-v4-basic ($29.99) is rejected with the Conflict error. -/
theorem upgrade_conflict_iff_price_le_witness :
    upgradeSubscription dbPremiumActive 1 "u" "mobile-v4-basic" 50
      = Except.error { status := 400, msg := "New plan must be higher tier" } :=
  (upgrade_conflict_iff_price_le dbPremiumActive 1 "u" "mobile-v4-basic" 50
    premiumActiveSub (by decide) (by decide)).1.mpr (by decide)

/-- Fixture: a QUEUED full-suite-premium subscription of user `"u"` on
device `"i"`. -/
def queuedOtpSub : Subscription :=
  sampleSub 1 "u" "i" "full-suite-premium" none SubStatus.QUEUED

/-- Fixture: the registered, not yet onboarded device of `(u, i)`. -/
def otpDevice : Device :=
  { id := 1, user := "u", imei := "i", totpSecret := "s", isOnboarded := false }

/-- Fixture store for the OTP activation runs. -/
def dbQueuedOtp : DB := { subs := [queuedOtpSub], devices := [otpDevice], txns := [] }

/-- Fixture store whose only subscription is still PENDING. -/
def dbPendingOtp : DB :=
  { subs := [sampleSub 1 "u" "i" "mobile-v4-basic" none SubStatus.PENDING]
    devices := [otpDevice], txns := [] }

/-- C9 witness: a PENDING subscription cannot be OTP-activated (store
unchanged), a QUEUED one with the code of step 7 at step 7 becomes ACTIVE
with the device onboarded, and the code of step 4 at step 7 (outside the
±2 window) is rejected with `Invalid OTP`. -/
theorem otp_activation_spec_witness :
    (∃ e, otpActivate stepEchoGen dbPendingOtp "u" "i" 1 "7" 0 7 = (dbPendingOtp, some e)) ∧
    (∃ db', otpActivate stepEchoGen dbQueuedOtp "u" "i" 1 "7" 0 7 = (db', none) ∧
      (∃ r, findSub db' 1 = some r ∧ r.status = SubStatus.ACTIVE ∧
        r.startDate = some 0) ∧
      (∃ dd, findDevice db' "u" "i" = some dd ∧ dd.isOnboarded = true)) ∧
    otpActivate stepEchoGen dbQueuedOtp "u" "i" 1 "4" 0 7
      = (dbQueuedOtp, some { status := 400, msg := "Invalid OTP" }) :=
  ⟨(otp_activation_spec stepEchoGen dbPendingOtp "u" "i" 1 "7" 0 7
      (sampleSub 1 "u" "i" "mobile-v4-basic" none SubStatus.PENDING)
      (by decide) (by decide) (by decide) (by decide) (by decide)).1 (by decide),
   ((otp_activation_spec stepEchoGen dbQueuedOtp "u" "i" 1 "7" 0 7 queuedOtpSub
      (by decide) (by decide) (by decide) (by decide) (by decide)).2 otpDevice
      (by decide) (by decide)).1 (by decide),
   ((otp_activation_spec stepEchoGen dbQueuedOtp "u" "i" 1 "4" 0 7 queuedOtpSub
      (by decide) (by decide) (by decide) (by decide) (by decide)).2 otpDevice
      (by decide) (by decide)).2 (by decide)⟩

/-- C10 witness: OTP-activating the full-suite-premium subscription — a
90-day plan by the duration table — still yields a 30-day window. -/
theorem otp_activation_always_thirty_days_witness :
    (∃ db' r, otpActivate stepEchoGen dbQueuedOtp "u" "i" 1 "7" 0 7 = (db', none) ∧
      findSub db' 1 = some r ∧ r.plan = queuedOtpSub.plan ∧
      r.endDate = some (0 + 30 * dayMs)) ∧
    queuedOtpSub.plan = "full-suite-premium" ∧
    getSubscriptionDuration "full-suite-premium" = 90 :=
  ⟨otp_activation_always_thirty_days stepEchoGen dbQueuedOtp "u" "i" 1 "7" 0 7
      queuedOtpSub otpDevice (by decide) (by decide) (by decide) (by decide)
      (by decide) (by decide) (by decide) (by decide),
   by decide, by decide⟩

/-- A document returned by a `findOne` fold is a member of the scanned
collection. -/
theorem pickMax_mem {α : Type} (better : α → α → Bool) :
    ∀ (l : List α) (acc : Option α) (a : α),
      (l.foldl
        (fun acc s =>
          match acc with
          | none => some s
          | some m => if better m s then some s else some m)
        acc) = some a → acc = some a ∨ a ∈ l := by
  intro l
  induction l with
  | nil => intro acc a h; exact Or.inl h
  | cons c t ih =>
    intro acc a h
    rcases ih _ a h with hacc | hmem
    · cases acc with
      | none =>
        simp only at hacc
        injection hacc with h1
        exact Or.inr (h1 ▸ List.mem_cons_self c t)
      | some m =>
        simp only at hacc
        by_cases hb : better m c
        · rw [if_pos hb] at hacc
          injection hacc with h1
          exact Or.inr (h1 ▸ List.mem_cons_self c t)
        · rw [if_neg hb] at hacc
          exact Or.inl hacc
    · exact Or.inr (List.mem_cons_of_mem c hmem)

/-- The ledger entry `latestTxnFor` finds belongs to the ledger. -/
theorem latestTxnFor_mem (db : DB) (subId : Nat) (t : Transaction)
    (h : latestTxnFor db subId = some t) : t ∈ db.txns := by
  unfold latestTxnFor pickMax at h
  rcases pickMax_mem _ _ _ _ h with hacc | hmem
  · cases hacc
  · exact List.mem_of_mem_filter hmem

/-- The initial accumulator never exceeds a `max` fold. -/
theorem foldl_max_init_le : ∀ (l : List Nat) (b : Nat), b ≤ l.foldl max b := by
  intro l
  induction l with
  | nil => intro b; exact Nat.le_refl b
  | cons c t ih =>
    intro b
    exact Nat.le_trans (Nat.le_max_left b c) (ih (max b c))

/-- Every member of a list is bounded by its `max` fold. -/
theorem mem_le_foldl_max : ∀ (l : List Nat) (b a : Nat), a ∈ l → a ≤ l.foldl max b := by
  intro l
  induction l with
  | nil => intro b a h; cases h
  | cons c t ih =>
    intro b a h
    cases h with
    | head => exact Nat.le_trans (Nat.le_max_right b c) (foldl_max_init_le t (max b c))
    | tail _ h' => exact ih (max b c) a h'

/-- Freshly generated ledger ids are strictly above every stored id. -/
theorem txn_mem_lt_freshTxnId (db : DB) (t : Transaction) (h : t ∈ db.txns) :
    t.id < freshTxnId db := by
  unfold freshTxnId
  exact Nat.lt_succ_of_le (mem_le_foldl_max _ 0 t.id (List.mem_map_of_mem _ h))

/-- Shape of the ledger after `logTransactionUpdate` when a prior entry
exists: the new entry is appended at the end, points back to the latest
prior entry through `previousTransaction`, and that prior entry receives
the new id in its `relatedTransactions`. -/
theorem logTransactionUpdate_txns_of_some (db : DB) (subId : Nat) (ty : TxType)
    (st : TxStatus) (adminId notes : String) (now : Int) (prev : Transaction)
    (hprev : latestTxnFor db subId = some prev) :
    ∃ newTxn : Transaction,
      (logTransactionUpdate db subId ty st adminId notes now).txns
        = db.txns.map (fun t =>
            if t.id = prev.id then
              { t with relatedTransactions := t.relatedTransactions ++ [newTxn.id] }
            else t) ++ [newTxn] ∧
      newTxn.previousTransaction = some prev.id ∧
      newTxn.subscription = subId ∧
      newTxn.processedBy = some adminId ∧
      newTxn.ttype = ty ∧
      newTxn.status = st := by
  have hlt : prev.id < freshTxnId db :=
    txn_mem_lt_freshTxnId db prev (latestTxnFor_mem db subId prev hprev)
  have hne : freshTxnId db ≠ prev.id := Nat.ne_of_gt hlt
  refine ⟨{ id := freshTxnId db
            user := prev.user
            subscription := subId
            device := prev.device
            transactionId := "TXN-" ++ toString (freshTxnId db)
            ttype := ty
            amount := prev.amount
            plan := prev.plan
            status := st
            processedBy := some adminId
            processedAt := some now
            previousTransaction := some prev.id
            relatedTransactions := []
            adminNotes := notes
            createdAt := now }, ?_, rfl, rfl, rfl, rfl, rfl⟩
  unfold logTransactionUpdate
  rw [hprev]
  simp only [List.map_append, List.map_cons, List.map_nil]
  rw [if_neg hne]

/-- C5 (amended): whenever the subscription already has at least one
ledger entry, every successful approval appends exactly one new
Transaction — linked to the latest prior entry through
`previousTransaction` and pushed into that entry's `relatedTransactions`
— recording the performed transition and the acting admin; when no prior
entry exists, the mutation goes through with no ledger entry at all. -/
theorem approve_appends_linked_transaction (db : DB) (id : Nat) (comments : String)
    (activateNow : Bool) (adminId : String) (now : Int) (db' : DB) (prev : Transaction)
    (hprev : latestTxnFor db id = some prev)
    (hok : approveSubscription db id comments activateNow adminId now = Except.ok db') :
    ∃ newTxn : Transaction,
      db'.txns = db.txns.map (fun t =>
          if t.id = prev.id then
            { t with relatedTransactions := t.relatedTransactions ++ [newTxn.id] }
          else t) ++ [newTxn] ∧
      newTxn.previousTransaction = some prev.id ∧
      newTxn.subscription = id ∧
      newTxn.processedBy = some adminId ∧
      newTxn.ttype
        = (if activateNow then TxType.SUBSCRIPTION_ACTIVATED else TxType.SUBSCRIPTION_APPROVED) ∧
      newTxn.status
        = (if activateNow then TxStatus.COMPLETED else TxStatus.PENDING) := by
  unfold approveSubscription at hok
  split at hok
  · exact absurd hok (by simp)
  · split at hok
    · exact absurd hok (by simp)
    · split at hok
      · exact absurd hok (by simp)
      · split at hok
        · exact absurd hok (by simp)
        · injection hok with hok'
          subst hok'
          exact logTransactionUpdate_txns_of_some _ id _ _ adminId comments now prev hprev

/-- Fixture: the `SUBSCRIPTION_CREATED` ledger entry of subscription 1. -/
def createdTxn : Transaction :=
  { id := 1, user := "u", subscription := 1, device := none
    transactionId := "TXN-1", ttype := TxType.SUBSCRIPTION_CREATED
    amount := 2999, plan := "mobile-v4-basic", status := TxStatus.PENDING
    processedBy := none, processedAt := none, previousTransaction := none
    relatedTransactions := [], adminNotes := "", createdAt := 0 }

/-- Fixture: a PENDING subscription together with its creation ledger
entry. -/
def dbWithLedger : DB :=
  { subs := [sampleSub 1 "u" "i" "mobile-v4-basic" (some "1") SubStatus.PENDING]
    devices := [], txns := [createdTxn] }

/-- C5 witness: approving the fixture subscription appends one entry
chained to the creation entry. -/
theorem approve_appends_linked_transaction_witness :
    ∃ db' newTxn,
      approveSubscription dbWithLedger 1 "ok" false "admin" 50 = Except.ok db' ∧
      db'.txns = dbWithLedger.txns.map (fun t =>
          if t.id = createdTxn.id then
            { t with relatedTransactions := t.relatedTransactions ++ [newTxn.id] }
          else t) ++ [newTxn] ∧
      newTxn.previousTransaction = some createdTxn.id ∧
      newTxn.subscription = 1 ∧
      newTxn.processedBy = some "admin" ∧
      newTxn.ttype
        = (if false then TxType.SUBSCRIPTION_ACTIVATED else TxType.SUBSCRIPTION_APPROVED) ∧
      newTxn.status = (if false then TxStatus.COMPLETED else TxStatus.PENDING) := by
  obtain ⟨newTxn, h1, h2, h3, h4, h5, h6⟩ :=
    approve_appends_linked_transaction dbWithLedger 1 "ok" false "admin" 50
      ((approveSubscription dbWithLedger 1 "ok" false "admin" 50).toOption.getD dbWithLedger)
      createdTxn (by decide) (by rfl)
  exact ⟨_, newTxn, by rfl, h1, h2, h3, h4, h5, h6⟩

/-- Searching subscriptions is unaffected by a ledger append. -/
theorem findSub_logTransactionUpdate (db : DB) (subId : Nat) (ty : TxType)
    (st : TxStatus) (adminId notes : String) (now : Int) (j : Nat) :
    findSub (logTransactionUpdate db subId ty st adminId notes now) j
      = findSub db j := by
  unfold findSub
  rw [logTransactionUpdate_subs]

/-- Processing one id of a bulk request never touches another id's
subscription record. -/
theorem bulkProcessOne_preserves_findSub (action : String) (data : BulkData)
    (adminId : String) (now : Int) (db : DB) (id j : Nat) (hne : j ≠ id) :
    findSub (bulkProcessOne action data adminId now db id).1 j = findSub db j := by
  unfold bulkProcessOne
  cases hfind : findSub db id with
  | none => rfl
  | some sub =>
    have hsubid : sub.id = id := by
      have := List.find?_some hfind
      simpa using this
    have hne' : sub.id ≠ j := by rw [hsubid]; exact fun h => hne h.symm
    by_cases hst : sub.status = SubStatus.PENDING
    · by_cases ha : action = "approve"
      · simp only [if_pos hst, if_pos ha]
        rw [findSub_logTransactionUpdate]
        apply findSub_saveSub_ne
        split <;> exact hne'
      · simp only [if_pos hst, if_neg ha]
        rw [findSub_logTransactionUpdate]
        exact findSub_saveSub_ne db _ j hne'
    · simp only [if_neg hst]

/-- The per-id result of a bulk body depends only on that id's record. -/
theorem bulkProcessOne_snd_congr (action : String) (data : BulkData)
    (adminId : String) (now : Int) (db1 db2 : DB) (id : Nat)
    (h : findSub db1 id = findSub db2 id) :
    (bulkProcessOne action data adminId now db1 id).2
      = (bulkProcessOne action data adminId now db2 id).2 := by
  unfold bulkProcessOne
  rw [h]
  cases findSub db2 id with
  | none => rfl
  | some sub =>
    by_cases hst : sub.status = SubStatus.PENDING
    · by_cases ha : action = "approve" <;> simp [hst, ha]
    · simp [hst]

/-- The result list of a bulk run over pairwise distinct ids is the map
of the per-id body over the **initial** store: one id's processing (and in
particular its failure) leaves every other id's result unchanged. -/
theorem bulkRun_snd_map (action : String) (data : BulkData) (adminId : String)
    (now : Int) :
    ∀ (ids : List Nat) (db db0 : DB), ids.Nodup →
      (∀ j ∈ ids, findSub db j = findSub db0 j) →
      (bulkRun action data adminId now db ids).2
        = ids.map (fun i => (bulkProcessOne action data adminId now db0 i).2) := by
  intro ids
  induction ids with
  | nil => intro db db0 _ _; rfl
  | cons id rest ih =>
    intro db db0 hnodup h
    have hid : id ∉ rest := (List.nodup_cons.mp hnodup).1
    have hrest : rest.Nodup := (List.nodup_cons.mp hnodup).2
    simp only [bulkRun, List.map_cons]
    have h1 := bulkProcessOne_snd_congr action data adminId now db db0 id
      (h id (List.mem_cons_self id rest))
    have h2 : (bulkRun action data adminId now
        (bulkProcessOne action data adminId now db id).1 rest).2
        = rest.map (fun i => (bulkProcessOne action data adminId now db0 i).2) := by
      apply ih _ db0 hrest
      intro j hj
      have hjne : j ≠ id := fun hcontra => hid (hcontra ▸ hj)
      rw [bulkProcessOne_preserves_findSub action data adminId now db id j hjne]
      exact h j (List.mem_cons_of_mem id hj)
    rw [h1, h2]

/-- C8 (amended): for the two supported bulk actions — `approve`, and
`reject` with a non-empty reason — a request over a non-empty list of
pairwise distinct ids succeeds and returns the per-id `{id, status,
success, reason}` results computed independently from the initial store,
so an invalid state, a missing record or a failure at one id leaves every
other id's processing and result unaffected; the `under_review` and
`update_priority` actions of the claim are **not** supported and reject
the whole request. -/
theorem bulk_per_id_independence (db : DB) (ids : List Nat) (action : String)
    (data : BulkData) (adminId : String) (now : Int)
    (hne : ids ≠ []) (hnodup : ids.Nodup)
    (haction : action = "approve" ∨ (action = "reject" ∧ data.reason ≠ "")) :
    ∃ dbF, bulkUpdateSubscriptions db ids action data adminId now
      = Except.ok (dbF, ids.map (fun i => (bulkProcessOne action data adminId now db i).2)) := by
  have hempty : ids.isEmpty = false := by
    cases ids with
    | nil => exact absurd rfl hne
    | cons a t => rfl
  have hmap := bulkRun_snd_map action data adminId now ids db db hnodup
    (fun j _ => rfl)
  rcases haction with ha | ⟨ha, hreason⟩
  · subst ha
    refine ⟨(bulkRun "approve" data adminId now db ids).1, ?_⟩
    simp only [bulkUpdateSubscriptions, hempty, Bool.false_eq_true, if_false,
      if_neg (by decide : ¬ ("approve" : String) = ""), if_pos rfl]
    rw [← hmap]
    simp
  · subst ha
    refine ⟨(bulkRun "reject" data adminId now db ids).1, ?_⟩
    simp only [bulkUpdateSubscriptions, hempty, Bool.false_eq_true, if_false,
      if_neg (by decide : ¬ ("reject" : String) = ""),
      if_neg (by decide : ¬ ("reject" : String) = "approve"), if_pos rfl,
      if_neg hreason]
    rw [← hmap]
    simp

/-- Fixture: three subscriptions for a bulk approval, the middle one
already CANCELLED. -/
def dbBulk : DB :=
  { subs := [sampleSub 1 "u1" "i1" "mobile-v4-basic" (some "1") SubStatus.PENDING,
             sampleSub 2 "u2" "i2" "mobile-v4-basic" none SubStatus.CANCELLED,
             sampleSub 3 "u3" "i3" "mobile-v4-basic" (some "1") SubStatus.PENDING]
    devices := [], txns := [] }

/-- Fixture: the `data` payload of a plain bulk approval. -/
def bulkApproveData : BulkData :=
  { activateNow := false, comments := "", reason := "" }

/-- C8 witness: bulk-approving `[1, 2, 3]` with subscription 2 already
CANCELLED yields success for 1 and 3 and a per-id failure for 2. -/
theorem bulk_per_id_independence_witness :
    ∃ dbF, bulkUpdateSubscriptions dbBulk [1, 2, 3] "approve" bulkApproveData "admin" 0
      = Except.ok (dbF,
        [{ id := 1, rstatus := "approved", success := true, reason := none },
         { id := 2, rstatus := "failed", success := false,
           reason := some "Invalid status or not found" },
         { id := 3, rstatus := "approved", success := true, reason := none }]) := by
  obtain ⟨dbF, h⟩ := bulk_per_id_independence dbBulk [1, 2, 3] "approve"
    bulkApproveData "admin" 0 (by decide) (by decide) (Or.inl rfl)
  refine ⟨dbF, ?_⟩
  rw [h]
  have hmap : (([1, 2, 3] : List Nat).map
      (fun i => (bulkProcessOne "approve" bulkApproveData "admin" 0 dbBulk i).2))
      = [{ id := 1, rstatus := "approved", success := true, reason := none },
         { id := 2, rstatus := "failed", success := false,
           reason := some "Invalid status or not found" },
         { id := 3, rstatus := "approved", success := true, reason := none }] := by
    decide
  rw [hmap]

/-- The byte-lexicographic order is irreflexive. -/
theorem charListLT_irrefl : ∀ l : List Char, charListLT l l = false := by
  intro l
  induction l with
  | nil => rfl
  | cons a t ih => simp [charListLT, lt_irrefl, ih]

/-- The byte-lexicographic order is transitive. -/
theorem charListLT_trans : ∀ x y z : List Char,
    charListLT x y = true → charListLT y z = true → charListLT x z = true := by
  intro x
  induction x with
  | nil =>
    intro y z hxy hyz
    cases y with
    | nil => cases hxy
    | cons b bs =>
      cases z with
      | nil => cases hyz
      | cons c cs => rfl
  | cons a as ih =>
    intro y z hxy hyz
    cases y with
    | nil => cases hxy
    | cons b bs =>
      cases z with
      | nil => cases hyz
      | cons c cs =>
        simp only [charListLT] at hxy hyz ⊢
        by_cases hab : a < b
        · by_cases hbc : b < c
          · simp [lt_trans hab hbc]
          · by_cases hcb : c < b
            · rw [if_neg hbc, if_pos hcb] at hyz; cases hyz
            · have hbceq : b = c := le_antisymm (le_of_not_lt hcb) (le_of_not_lt hbc)
              subst hbceq
              simp [hab]
        · by_cases hba : b < a
          · rw [if_neg hab, if_pos hba] at hxy; cases hxy
          · have habeq : a = b := le_antisymm (le_of_not_lt hba) (le_of_not_lt hab)
            subst habeq
            rw [if_neg hab, if_neg hba] at hxy
            by_cases hac : a < c
            · simp [hac]
            · by_cases hca : c < a
              · rw [if_neg hac, if_pos hca] at hyz; cases hyz
              · have haceq : a = c := le_antisymm (le_of_not_lt hca) (le_of_not_lt hac)
                subst haceq
                rw [if_neg hac, if_neg hac] at hyz ⊢
                exact ih bs cs hxy hyz

/-- The byte-lexicographic order is connected: two incomparable lists are
equal. -/
theorem charListLT_conn : ∀ x y : List Char,
    charListLT x y = false → charListLT y x = true ∨ x = y := by
  intro x
  induction x with
  | nil =>
    intro y h
    cases y with
    | nil => exact Or.inr rfl
    | cons b bs => cases h
  | cons a as ih =>
    intro y h
    cases y with
    | nil => exact Or.inl rfl
    | cons b bs =>
      simp only [charListLT] at h ⊢
      by_cases hab : a < b
      · rw [if_pos hab] at h; cases h
      · rw [if_neg hab] at h
        by_cases hba : b < a
        · exact Or.inl (by rw [if_pos hba])
        · have habeq : a = b := le_antisymm (le_of_not_lt hba) (le_of_not_lt hab)
          subst habeq
          rw [if_neg hab] at h ⊢
          rw [if_neg hab]
          rcases ih bs h with h' | h'
          · exact Or.inl h'
          · exact Or.inr (by rw [h'])

/-- The BSON sort-key order on `Option String` is irreflexive. -/
theorem posLT_irrefl (a : Option String) : posLT a a = false := by
  cases a with
  | none => rfl
  | some x => exact charListLT_irrefl x.data

/-- The BSON sort-key order on `Option String` is transitive. -/
theorem posLT_trans (a b c : Option String)
    (h1 : posLT a b = true) (h2 : posLT b c = true) : posLT a c = true := by
  cases a with
  | none =>
    cases c with
    | none => cases b with
      | none => cases h1
      | some y => cases h2
    | some z => rfl
  | some x =>
    cases b with
    | none => cases h1
    | some y =>
      cases c with
      | none => cases h2
      | some z => exact charListLT_trans x.data y.data z.data h1 h2

/-- The BSON sort-key order on `Option String` is connected. -/
theorem posLT_conn (a b : Option String)
    (h : posLT a b = false) : posLT b a = true ∨ a = b := by
  cases a with
  | none =>
    cases b with
    | none => exact Or.inr rfl
    | some y => cases h
  | some x =>
    cases b with
    | none => exact Or.inl rfl
    | some y =>
      rcases charListLT_conn x.data y.data h with h' | h'
      · exact Or.inl h'
      · refine Or.inr ?_
        cases x with
        | mk lx =>
          cases y with
          | mk ly =>
            simp only at h'
            rw [h']

/-- Invariant of the `findOne`-descending-sort fold: starting from a
current best `m`, the fold returns an element that no scanned element
(nor `m`) beats. -/
theorem pickMax_ge {α : Type} (better : α → α → Bool)
    (hirr : ∀ a, better a a = false)
    (htrans : ∀ a b c, better a b = true → better b c = true → better a c = true)
    (hneg : ∀ a b c, better a b = false → better b c = false → better a c = false) :
    ∀ (l : List α) (m r : α),
      (l.foldl
        (fun acc s =>
          match acc with
          | none => some s
          | some mm => if better mm s then some s else some mm)
        (some m)) = some r →
      better r m = false ∧ ∀ x ∈ l, better r x = false := by
  intro l
  induction l with
  | nil =>
    intro m r h
    injection h with h'
    subst h'
    exact ⟨hirr _, by intro x hx; cases hx⟩
  | cons s t ih =>
    intro m r h
    simp only [List.foldl_cons] at h
    by_cases hms : better m s
    · rw [if_pos hms] at h
      obtain ⟨h1, h2⟩ := ih s r h
      have hrm : better r m = false := by
        cases hrm : better r m with
        | false => rfl
        | true => exact absurd (htrans r m s hrm hms) (by rw [h1]; intro hc; cases hc)
      refine ⟨hrm, ?_⟩
      intro x hx
      cases hx with
      | head => exact h1
      | tail _ hx' => exact h2 x hx'
    · rw [if_neg hms] at h
      have hms' : better m s = false := by
        cases hb : better m s with
        | false => rfl
        | true => exact absurd hb hms
      obtain ⟨h1, h2⟩ := ih m r h
      refine ⟨h1, ?_⟩
      intro x hx
      cases hx with
      | head =>
        have := hneg r m s h1 hms'
        exact this
      | tail _ hx' => exact h2 x hx'

/-- The fold of `pickMax` over a non-empty collection yields an element of
the collection that no element beats. -/
theorem pickMax_spec {α : Type} (better : α → α → Bool)
    (hirr : ∀ a, better a a = false)
    (htrans : ∀ a b c, better a b = true → better b c = true → better a c = true)
    (hneg : ∀ a b c, better a b = false → better b c = false → better a c = false)
    (h : α) (t : List α) :
    ∃ r, pickMax better (h :: t) = some r ∧ r ∈ h :: t ∧
      ∀ x ∈ h :: t, better r x = false := by
  have hsome : ∀ (l : List α) (m : α), ∃ r,
      (l.foldl
        (fun acc s =>
          match acc with
          | none => some s
          | some mm => if better mm s then some s else some mm)
        (some m)) = some r := by
    intro l
    induction l with
    | nil => intro m; exact ⟨m, rfl⟩
    | cons s t' ih =>
      intro m
      simp only [List.foldl_cons]
      by_cases hms : better m s
      · rw [if_pos hms]; exact ih s
      · rw [if_neg hms]; exact ih m
  obtain ⟨r, hr⟩ := hsome t h
  have hfold : pickMax better (h :: t) = some r := hr
  obtain ⟨h1, h2⟩ := pickMax_ge better hirr htrans hneg t h r hr
  have hmem : r ∈ h :: t := by
    rcases pickMax_mem better t (some h) r hr with hacc | hmem'
    · injection hacc with h'
      exact h' ▸ List.mem_cons_self h t
    · exact List.mem_cons_of_mem h hmem'
  refine ⟨r, hfold, hmem, ?_⟩
  intro x hx
  cases hx with
  | head => exact h1
  | tail _ hx' => exact h2 x hx'

/-- Unfolding the digit-run accumulator from an arbitrary start value. -/
theorem digitsVal_foldl : ∀ (l : List Char) (a : Nat),
    l.foldl (fun a c => a * 10 + (c.toNat - 48)) a
      = a * 10 ^ l.length + digitsVal l := by
  intro l
  induction l with
  | nil => intro a; simp [digitsVal]
  | cons c t ih =>
    intro a
    simp only [List.foldl_cons, List.length_cons]
    rw [ih (a * 10 + (c.toNat - 48))]
    have hv : digitsVal (c :: t) = (c.toNat - 48) * 10 ^ t.length + digitsVal t := by
      unfold digitsVal
      simp only [List.foldl_cons]
      rw [ih (0 * 10 + (c.toNat - 48))]
      have h0 : (0 : Nat) * 10 + (c.toNat - 48) = c.toNat - 48 := by ring
      rw [h0]
      rfl
    rw [hv]
    ring

/-- Positional unfolding of `digitsVal`. -/
theorem digitsVal_cons (c : Char) (t : List Char) :
    digitsVal (c :: t) = (c.toNat - 48) * 10 ^ t.length + digitsVal t := by
  unfold digitsVal
  simp only [List.foldl_cons]
  rw [digitsVal_foldl t (0 * 10 + (c.toNat - 48))]
  have h0 : (0 : Nat) * 10 + (c.toNat - 48) = c.toNat - 48 := by ring
  rw [h0]
  rfl

/-- A digit character's code point lies between 48 and 57. -/
theorem isDigit_toNat_bounds (c : Char) (h : c.isDigit = true) :
    48 ≤ c.toNat ∧ c.toNat ≤ 57 := by
  unfold Char.isDigit at h
  simp at h
  exact ⟨h.1, h.2⟩

/-- The value of a digit run is below `10 ^ length`. -/
theorem digitsVal_lt (l : List Char) (h : ∀ c ∈ l, c.isDigit = true) :
    digitsVal l < 10 ^ l.length := by
  induction l with
  | nil => simp [digitsVal]
  | cons c t ih =>
    rw [digitsVal_cons, List.length_cons]
    have hc := isDigit_toNat_bounds c (h c (List.mem_cons_self c t))
    have hd : c.toNat - 48 ≤ 9 := by omega
    have ht := ih (fun x hx => h x (List.mem_cons_of_mem c hx))
    calc (c.toNat - 48) * 10 ^ t.length + digitsVal t
        < (c.toNat - 48) * 10 ^ t.length + 10 ^ t.length := by omega
      _ = ((c.toNat - 48) + 1) * 10 ^ t.length := by ring
      _ ≤ 10 * 10 ^ t.length := by
          have h10 : (c.toNat - 48) + 1 ≤ 10 := by omega
          exact Nat.mul_le_mul_right _ h10
      _ = 10 ^ (t.length + 1) := by ring

/-- Character order is code-point order. -/
theorem char_lt_iff_toNat (a b : Char) : a < b ↔ a.toNat < b.toNat := by
  constructor
  · intro h
    simpa [Char.toNat] using h
  · intro h
    simpa [Char.toNat] using h

/-- On equal-length digit runs, the byte-lexicographic order agrees with
the numeric order of the parsed values. -/
theorem charListLT_iff_digitsVal : ∀ x y : List Char, x.length = y.length →
    (∀ c ∈ x, c.isDigit = true) → (∀ c ∈ y, c.isDigit = true) →
    (charListLT x y = true ↔ digitsVal x < digitsVal y) := by
  intro x
  induction x with
  | nil =>
    intro y hlen _ _
    cases y with
    | nil => simp [charListLT, digitsVal]
    | cons b bs => cases hlen
  | cons a as ih =>
    intro y hlen hx hy
    cases y with
    | nil => cases hlen
    | cons b bs =>
      have hlen' : as.length = bs.length := by
        simpa using hlen
      have ha := isDigit_toNat_bounds a (hx a (List.mem_cons_self a as))
      have hb := isDigit_toNat_bounds b (hy b (List.mem_cons_self b bs))
      have hva := digitsVal_lt as (fun c hc => hx c (List.mem_cons_of_mem a hc))
      have hvb := digitsVal_lt bs (fun c hc => hy c (List.mem_cons_of_mem b hc))
      rw [hlen'] at hva
      simp only [charListLT, digitsVal_cons, hlen']
      by_cases hab : a < b
      · rw [if_pos hab]
        refine ⟨fun _ => ?_, fun _ => rfl⟩
        have hdigit : a.toNat - 48 < b.toNat - 48 := by
          have := (char_lt_iff_toNat a b).mp hab
          omega
        have h2 : ((a.toNat - 48) + 1) * 10 ^ bs.length
            ≤ (b.toNat - 48) * 10 ^ bs.length :=
          Nat.mul_le_mul_right _ hdigit
        nlinarith
      · rw [if_neg hab]
        by_cases hba : b < a
        · rw [if_pos hba]
          refine ⟨fun h => ?_, fun hlt => ?_⟩
          · cases h
          exfalso
          have hdigit : b.toNat - 48 < a.toNat - 48 := by
            have := (char_lt_iff_toNat b a).mp hba
            omega
          have h2 : ((b.toNat - 48) + 1) * 10 ^ bs.length
              ≤ (a.toNat - 48) * 10 ^ bs.length :=
            Nat.mul_le_mul_right _ hdigit
          nlinarith
        · rw [if_neg hba]
          have habeq : a = b := le_antisymm (le_of_not_lt hba) (le_of_not_lt hab)
          subst habeq
          rw [ih bs hlen' (fun c hc => hx c (List.mem_cons_of_mem a hc))
            (fun c hc => hy c (List.mem_cons_of_mem a hc))]
          omega

/-- `parseInt` of a non-empty pure digit string is its decimal value. -/
theorem jsParseInt_digits (s : String) (hne : s.data ≠ [])
    (hd : ∀ c ∈ s.data, c.isDigit = true) :
    jsParseInt s = some ((digitsVal s.data : Nat) : Int) := by
  unfold jsParseInt
  have hdw : s.data.dropWhile (fun x => x = ' ') = s.data := by
    cases hsd : s.data with
    | nil => rfl
    | cons c t =>
      have hc := isDigit_toNat_bounds c (hd c (hsd ▸ List.mem_cons_self c t))
      rw [List.dropWhile_cons]
      have : ¬ (c = ' ') := by
        intro h
        subst h
        exact absurd hc (by decide)
      simp [this]
  rw [hdw]
  cases hsd : s.data with
  | nil => exact absurd hsd hne
  | cons c t =>
    have hc := isDigit_toNat_bounds c (hd c (hsd ▸ List.mem_cons_self c t))
    have htw : (c :: t).takeWhile (fun x => x.isDigit) = c :: t :=
      List.takeWhile_eq_self_iff.mpr (fun a ha => hd a (hsd ▸ ha))
    dsimp only
    split
    · rename_i rest heq
      injection heq with h1 h2
      subst h1
      exact absurd hc (by decide)
    · rename_i rest heq
      injection heq with h1 h2
      subst h1
      exact absurd hc (by decide)
    · rw [htw]
      simp

/-- The BSON sort-key order is negatively transitive. -/
theorem posLT_negtrans (a b c : Option String)
    (h1 : posLT a b = false) (h2 : posLT b c = false) : posLT a c = false := by
  cases hac : posLT a c with
  | false => rfl
  | true =>
    exfalso
    rcases posLT_conn b c h2 with hcb | hbc
    · have := posLT_trans a c b hac hcb
      rw [h1] at this
      cases this
    · rw [← hbc] at hac
      rw [h1] at hac
      cases hac

/-- The initial accumulator never exceeds an integer `max` fold. -/
theorem int_foldl_max_init_le : ∀ (l : List Int) (b : Int), b ≤ l.foldl max b := by
  intro l
  induction l with
  | nil => intro b; exact le_refl b
  | cons c t ih => intro b; exact le_trans (le_max_left b c) (ih (max b c))

/-- Every member of an integer list is bounded by its `max` fold. -/
theorem int_mem_le_foldl_max : ∀ (l : List Int) (b a : Int), a ∈ l → a ≤ l.foldl max b := by
  intro l
  induction l with
  | nil => intro b a h; cases h
  | cons c t ih =>
    intro b a h
    cases h with
    | head => exact le_trans (le_max_right b c) (int_foldl_max_init_le t (max b c))
    | tail _ h' => exact ih (max b c) a h'

/-- An upper bound of the members and the accumulator bounds the `max`
fold. -/
theorem int_foldl_max_le : ∀ (l : List Int) (b a : Int), b ≤ a →
    (∀ x ∈ l, x ≤ a) → l.foldl max b ≤ a := by
  intro l
  induction l with
  | nil => intro b a hb _; exact hb
  | cons c t ih =>
    intro b a hb h
    refine ih (max b c) a ?_ (fun x hx => h x (List.mem_cons_of_mem c hx))
    exact max_le hb (h c (List.mem_cons_self c t))

/-- The `max` fold from 0 of a list containing its own non-negative upper
bound equals that bound. -/
theorem int_foldl_max_eq (l : List Int) (a : Int) (hmem : a ∈ l)
    (hub : ∀ x ∈ l, x ≤ a) (h0 : 0 ≤ a) : l.foldl max 0 = a :=
  le_antisymm (int_foldl_max_le l 0 a h0 hub) (int_mem_le_foldl_max l 0 a hmem)

/-- A subscription whose stored queue position is an `L`-digit string. -/
def digitPosOfLen (L : Nat) (s : Subscription) : Bool :=
  match s.queuePosition with
  | some p => p.length == L && p.data.all (fun c => c.isDigit)
  | none => false

/-- C2 (amended): `getNextQueuePosition` returns one plus the numeric
value of the byte-lexicographically greatest stored position; this equals
the claim's `numeric max + 1` whenever all stored positions of the IMEI's
PENDING/QUEUED subscriptions are digit strings of one common length `L`
(in particular for any queue of at most nine entries), since on
equal-length digit strings the lexicographic and numeric orders agree. -/
theorem getNextQueuePosition_amended (db : DB) (imei : String) (L : Nat) (hL : 0 < L)
    (hne : db.subs.filter (inQueueOf imei) ≠ [])
    (hall : (db.subs.filter (inQueueOf imei)).all (digitPosOfLen L) = true) :
    getNextQueuePosition db imei = specNextQueuePosition db imei := by
  have hall' : ∀ s ∈ db.subs.filter (inQueueOf imei), ∃ p : String,
      s.queuePosition = some p ∧ p.data.length = L ∧ ∀ c ∈ p.data, c.isDigit = true := by
    intro s hs
    have h := (List.all_eq_true.mp hall) s hs
    unfold digitPosOfLen at h
    cases hp : s.queuePosition with
    | none => rw [hp] at h; cases h
    | some p =>
      rw [hp] at h
      simp only [Bool.and_eq_true, beq_iff_eq, List.all_eq_true] at h
      exact ⟨p, rfl, h.1, fun c hc => h.2 c hc⟩
  cases hfl : db.subs.filter (inQueueOf imei) with
  | nil => exact absurd hfl hne
  | cons h0 t0 =>
    obtain ⟨r, hpick, hmem, hmax⟩ := pickMax_spec
      (fun m s => posLT m.queuePosition s.queuePosition)
      (fun a => posLT_irrefl a.queuePosition)
      (fun a b c h1 h2 =>
        posLT_trans a.queuePosition b.queuePosition c.queuePosition h1 h2)
      (fun a b c h1 h2 =>
        posLT_negtrans a.queuePosition b.queuePosition c.queuePosition h1 h2)
      h0 t0
    have hfmq : findMaxQueued db imei = some r := by
      rw [findMaxQueued, hfl]
      exact hpick
    have hmemf : r ∈ db.subs.filter (inQueueOf imei) := by rw [hfl]; exact hmem
    have hmaxf : ∀ x ∈ db.subs.filter (inQueueOf imei),
        posLT r.queuePosition x.queuePosition = false := by
      rw [hfl]; exact hmax
    obtain ⟨pr, hpr, hprlen, hprdig⟩ := hall' r hmemf
    have hprdata : pr.data ≠ [] := by
      intro hcontra
      rw [hcontra] at hprlen
      simp at hprlen
      omega
    have hprne : pr ≠ "" := by
      intro hcontra
      rw [hcontra] at hprdata
      exact hprdata rfl
    have hparse := jsParseInt_digits pr hprdata hprdig
    have hlhs : getNextQueuePosition db imei
        = toString ((digitsVal pr.data : Int) + 1) := by
      unfold getNextQueuePosition
      rw [hfmq]
      dsimp only
      rw [hpr]
      dsimp only
      rw [if_neg hprne, hparse]
      rfl
    have hqn : ∀ v ∈ queueNumbers db imei, v ≤ (digitsVal pr.data : Int) := by
      intro v hv
      unfold queueNumbers at hv
      obtain ⟨s, hsmem, hseq⟩ := List.mem_filterMap.mp hv
      obtain ⟨ps, hps, hpslen, hpsdig⟩ := hall' s hsmem
      have hpsdata : ps.data ≠ [] := by
        intro hcontra
        rw [hcontra] at hpslen
        simp at hpslen
        omega
      rw [hps] at hseq
      simp only [Option.some_bind] at hseq
      rw [jsParseInt_digits ps hpsdata hpsdig] at hseq
      injection hseq with hv'
      subst hv'
      have hcmp := hmaxf s hsmem
      rw [hpr, hps] at hcmp
      have hcl : charListLT pr.data ps.data = false := hcmp
      have hiff := charListLT_iff_digitsVal pr.data ps.data
        (by rw [hprlen, hpslen]) hprdig hpsdig
      have hnlt : ¬ digitsVal pr.data < digitsVal ps.data := by
        intro hlt
        have := hiff.mpr hlt
        rw [hcl] at this
        cases this
      exact_mod_cast Nat.le_of_not_lt hnlt
    have hmemq : (digitsVal pr.data : Int) ∈ queueNumbers db imei := by
      unfold queueNumbers
      refine List.mem_filterMap.mpr ⟨r, hmemf, ?_⟩
      rw [hpr]
      simp only [Option.some_bind]
      exact hparse
    have hqne : ¬ (queueNumbers db imei).isEmpty = true := by
      intro hcontra
      rw [List.isEmpty_iff] at hcontra
      rw [hcontra] at hmemq
      cases hmemq
    have hfold := int_foldl_max_eq (queueNumbers db imei) _ hmemq hqn
      (Int.ofNat_nonneg _)
    have hrhs : specNextQueuePosition db imei
        = toString ((digitsVal pr.data : Int) + 1) := by
      unfold specNextQueuePosition
      rw [if_neg hqne, hfold]
    rw [hlhs, hrhs]

/-- C2 witness: on the dense single-digit queue {"1", "2"} the function
agrees with the spec value and returns "3". -/
theorem getNextQueuePosition_amended_witness :
    getNextQueuePosition dbTwoPending "imei1" = specNextQueuePosition dbTwoPending "imei1" ∧
    specNextQueuePosition dbTwoPending "imei1" = "3" :=
  ⟨getNextQueuePosition_amended dbTwoPending "imei1" 1 (by decide) (by decide) (by decide),
   by decide⟩
